import Mathlib

/-!
# Liveness registry of `LoggingServer/main.go`

A shallow embedding of the server side of the heartbeat protocol: the client
store (`SafeClientStore`), the four request handlers (`registerNewClient`,
`heartbeatClient`, `startShutdownClient`, `endShutdownClient`), the dispatcher
(`handleClientRequest`) and one pass of the loop body of `asyncHeartbeatMonitor`.

Modelling conventions.

* The global `clientStore` is threaded explicitly: every handler takes the store
  and returns the store it leaves behind.
* `time.Now()` is an explicit argument `now`. A `time.Time` is represented by its
  clock reading in nanoseconds, an integer; `t.Add(d)` is `t + d` and
  `t.Before(u)` is `t < u`. Readings are unbounded integers: the 64-bit counter
  behind a reading holds about 292 years of nanoseconds, and no wrap-around is
  modelled.
* A Go `map[string]*Client` is a list of key/record pairs read through
  `mapLookup`. Every pointer stored in the map comes from a fresh local variable
  of `registerNewClient`, so no two keys share a record and an assignment through
  the pointer is an in-place update of the entry under that key.
* Log output is not part of the model, with one exception: `log.Fatalf`, which
  ends the process, is the `Outcome.fatal` result of `handleClientRequest`.
* The handlers are modelled as run one at a time, which is what the mutex
  `clientStore.lock` arranges for them; the lock itself is not modelled.
-/

namespace LoggingServer

/-- Clock reading in nanoseconds (`time.Time`). -/
abbrev Time := Int

/-- The duration `time.Second`, in nanoseconds. -/
def Second : Time := 1000000000

/-- The constant `HeartbeatTimeout`; the source uses it in a log line only. -/
def HeartbeatTimeout : Nat := 2

def ClientStartupType : Int := 0
def ClientHeartbeatType : Int := 1
def ClientShutdownStartType : Int := 2
def ClientShutdownEndType : Int := 3

/-- The struct `ClientRequest`; the field `Type_` is the source's `Type`. -/
structure ClientRequest where
  Hostname : String
  Type_ : Int
  Version : String
deriving DecidableEq, Repr

/-- The struct `Client`. `Active = false` is the shutting-down state. -/
structure Client where
  Hostname : String
  Version : String
  LastHeartbeat : Time
  Active : Bool
deriving DecidableEq, Repr

/-- The field `clients` of `SafeClientStore`, a `map[string]*Client`. -/
abbrev SafeClientStore := List (String × Client)

/-- Map read `m[k]` with the comma-ok form: the record under `k`, if any. -/
def mapLookup (k : String) : SafeClientStore → Option Client
  | [] => none
  | e :: rest => if e.1 = k then some e.2 else mapLookup k rest

/-- The builtin `delete(m, k)`. -/
def mapDelete (k : String) (m : SafeClientStore) : SafeClientStore :=
  m.filter (fun e => decide (e.1 ≠ k))

/-- Map assignment `m[k] = c`. -/
def mapSet (k : String) (c : Client) (m : SafeClientStore) : SafeClientStore :=
  (k, c) :: mapDelete k m

/-- Assignment through the pointer stored under `k`: the record is updated in place. -/
def mapModify (k : String) (f : Client → Client) (m : SafeClientStore) : SafeClientStore :=
  m.map (fun e => if e.1 = k then (e.1, f e.2) else e)

/-- The keys of the map. -/
def mapKeys (m : SafeClientStore) : List String :=
  m.map Prod.fst

/-- The function `registerNewClient`, lines 82-100. -/
def registerNewClient (hostname version : String) (now : Time)
    (store : SafeClientStore) : SafeClientStore :=
  let client : Client :=
    { Hostname := hostname, Version := version, LastHeartbeat := now, Active := true }
  match mapLookup client.Hostname store with
  | some _ => store
  | none => mapSet client.Hostname client store

/-- The function `getExistingClient`, lines 102-116: `none` is the nil pointer.
The version is compared for a log line only. -/
def getExistingClient (hostname : String) (_version : String)
    (store : SafeClientStore) : Option Client :=
  match mapLookup hostname store with
  | none => none
  | some existingClient => some existingClient

/-- The function `heartbeatClient`, lines 118-126. -/
def heartbeatClient (hostname version : String) (now : Time)
    (store : SafeClientStore) : SafeClientStore :=
  match getExistingClient hostname version store with
  | none => store
  | some _ => mapModify hostname (fun c => { c with LastHeartbeat := now }) store

/-- The function `startShutdownClient`, lines 128-137. -/
def startShutdownClient (hostname version : String)
    (store : SafeClientStore) : SafeClientStore :=
  match getExistingClient hostname version store with
  | none => store
  | some _ => mapModify hostname (fun c => { c with Active := false }) store

/-- The function `endShutdownClient`, lines 139-148. -/
def endShutdownClient (hostname version : String)
    (store : SafeClientStore) : SafeClientStore :=
  match getExistingClient hostname version store with
  | none => store
  | some _ => mapDelete hostname store

/-- Body of the `range` loop of `asyncHeartbeatMonitor`, lines 155-162, at the key
`k`. A key whose entry was deleted earlier in the pass is not produced by `range`,
so it is skipped. The `delete` is keyed by the record's own `Hostname` field,
as in the source. -/
def sweepStep (now : Time) (store : SafeClientStore) (k : String) : SafeClientStore :=
  match mapLookup k store with
  | none => store
  | some client =>
    if !client.Active then store
    else if client.LastHeartbeat + Second < now then mapDelete client.Hostname store
    else store

/-- One pass of the loop of `asyncHeartbeatMonitor`, lines 152-164, with `now` read
once and the keys produced by `range` in the order `order`. Go leaves the order
unspecified, so it is an argument; an actual pass uses a permutation of the keys. -/
def sweepOver (order : List String) (now : Time) (store : SafeClientStore) : SafeClientStore :=
  order.foldl (sweepStep now) store

/-- Result of one call of a request handler: it returns with the store it leaves,
or the process is ended by `log.Fatalf` with an exit status. -/
inductive Outcome where
  | returned (store : SafeClientStore)
  | fatal (status : Nat)
deriving DecidableEq, Repr

/-- The function `handleClientRequest`, lines 62-80. The argument `decoded` is the
result of `json.NewDecoder(r.Body).Decode(&req)`: an error or the decoded request.
The source never writes to the response writer `w`, so a call that returns has
reported nothing to its caller but the default empty response. -/
def handleClientRequest (decoded : Except String ClientRequest) (now : Time)
    (store : SafeClientStore) : Outcome :=
  match decoded with
  | .error _ => .fatal 1
  | .ok req =>
    if req.Type_ = ClientStartupType then
      .returned (registerNewClient req.Hostname req.Version now store)
    else if req.Type_ = ClientHeartbeatType then
      .returned (heartbeatClient req.Hostname req.Version now store)
    else if req.Type_ = ClientShutdownStartType then
      .returned (startShutdownClient req.Hostname req.Version store)
    else if req.Type_ = ClientShutdownEndType then
      .returned (endShutdownClient req.Hostname req.Version store)
    else
      .returned store

/-- The requests delivered to the handler registered in `main` (line 58), one after
the other, each with the clock reading at which it is handled. Once a call has
ended the process no later request is handled. -/
def serveRequests : List (Time × Except String ClientRequest) → SafeClientStore → Outcome
  | [], store => .returned store
  | (now, decoded) :: rest, store =>
    match handleClientRequest decoded now store with
    | .returned store' => serveRequests rest store'
    | .fatal status => .fatal status

/-- One registry operation; `sweep order` is one pass of the monitor loop. -/
inductive Op where
  | register (hostname version : String)
  | heartbeat (hostname version : String)
  | startShutdown (hostname version : String)
  | endShutdown (hostname version : String)
  | sweep (order : List String)
deriving DecidableEq, Repr

/-- Effect of one operation performed at clock reading `now`. -/
def applyOp (now : Time) (op : Op) (store : SafeClientStore) : SafeClientStore :=
  match op with
  | .register h v => registerNewClient h v now store
  | .heartbeat h v => heartbeatClient h v now store
  | .startShutdown h v => startShutdownClient h v store
  | .endShutdown h v => endShutdownClient h v store
  | .sweep order => sweepOver order now store

/-- Effect of a sequence of timed operations, first to last. -/
def runOps (tr : List (Time × Op)) (store : SafeClientStore) : SafeClientStore :=
  tr.foldl (fun s e => applyOp e.1 e.2 s) store

/-- The store of a freshly started server (`main`, line 54). -/
def emptyStore : SafeClientStore := []

/-- Every record sits under the key equal to its own `Hostname` field. -/
def KeyedByHostname (store : SafeClientStore) : Prop :=
  ∀ k c, mapLookup k store = some c → c.Hostname = k

/-- The test of the monitor loop, lines 155-158: the record is active and its
last heartbeat plus one second is before `now`. -/
def Expired (now : Time) (c : Client) : Prop :=
  c.Active = true ∧ c.LastHeartbeat + Second < now

/-! ## Lemmas on the map primitives -/

theorem mapDelete_cons (k : String) (e : String × Client) (m : SafeClientStore) :
    mapDelete k (e :: m) = if e.1 = k then mapDelete k m else e :: mapDelete k m := by
  unfold mapDelete
  by_cases h : e.1 = k <;> simp [List.filter_cons, h]

theorem mapLookup_cons (k : String) (e : String × Client) (m : SafeClientStore) :
    mapLookup k (e :: m) = if e.1 = k then some e.2 else mapLookup k m := rfl

theorem mapLookup_mapDelete (k k' : String) (m : SafeClientStore) :
    mapLookup k (mapDelete k' m) = if k = k' then none else mapLookup k m := by
  induction m with
  | nil => simp [mapDelete, mapLookup]
  | cons e rest ih =>
    rw [mapDelete_cons]
    by_cases h : e.1 = k'
    · rw [if_pos h, ih, mapLookup_cons]
      by_cases hk : k = k'
      · simp [hk]
      · have hne : ¬ e.1 = k := fun he => hk (he.symm.trans h)
        simp [hk, hne]
    · rw [if_neg h, mapLookup_cons, mapLookup_cons, ih]
      by_cases he : e.1 = k
      · have hk : ¬ k = k' := fun hk => h (he.trans hk)
        simp [he, hk]
      · simp [he]

theorem mapLookup_mapSet (k k' : String) (c : Client) (m : SafeClientStore) :
    mapLookup k (mapSet k' c m) = if k = k' then some c else mapLookup k m := by
  by_cases hk : k = k'
  · simp [mapSet, mapLookup, hk]
  · have hne : ¬ k' = k := fun h => hk h.symm
    simp [mapSet, mapLookup, hk, hne, mapLookup_mapDelete]

theorem mapLookup_mapModify (k k' : String) (f : Client → Client) (m : SafeClientStore) :
    mapLookup k (mapModify k' f m) = if k = k' then (mapLookup k m).map f else mapLookup k m := by
  induction m with
  | nil => simp [mapModify, mapLookup]
  | cons e rest ih =>
    unfold mapModify at ih ⊢
    by_cases h : e.1 = k'
    · by_cases hk : k = k'
      · subst hk
        simp [h, mapLookup]
      · have hne : ¬ e.1 = k := fun he => hk (he.symm.trans h)
        have hne' : ¬ k' = k := fun he => hk he.symm
        simp [h, hk, mapLookup, hne, hne'] at ih ⊢
        exact ih
    · by_cases he : e.1 = k
      · have hk : ¬ k = k' := fun hk => h (he.trans hk)
        simp [h, mapLookup, he, hk]
      · simp [h, mapLookup, he] at ih ⊢
        exact ih

theorem getExistingClient_eq (hostname version : String) (store : SafeClientStore) :
    getExistingClient hostname version store = mapLookup hostname store := by
  unfold getExistingClient
  cases mapLookup hostname store <;> rfl

theorem mapKeys_mapModify (k : String) (f : Client → Client) (m : SafeClientStore) :
    mapKeys (mapModify k f m) = mapKeys m := by
  induction m with
  | nil => rfl
  | cons e rest ih =>
    unfold mapKeys mapModify at ih ⊢
    by_cases h : e.1 = k <;> simp [h] at ih ⊢ <;> exact ih

/-! ## The request handlers -/

/-- Claim C3 (idempotent registration): when the store already holds a record `c`
for `id`, `registerNewClient id v2` at any time `now` returns the store unchanged;
the record under `id` is still `c`, with its version, last heartbeat and state. -/
theorem registerNewClient_idempotent (store : SafeClientStore) (id v2 : String)
    (now : Time) (c : Client) (h : mapLookup id store = some c) :
    registerNewClient id v2 now store = store ∧
      mapLookup id (registerNewClient id v2 now store) = some c := by
  have h1 : registerNewClient id v2 now store = store := by
    simp [registerNewClient, h]
  exact ⟨h1, by rw [h1]; exact h⟩

/-- Claim C3 at a concrete store: `h1` registered with `v1` at 0, then with `v2` at 5. -/
theorem registerNewClient_idempotent_witness :
    mapLookup "h1" (registerNewClient "h1" "v1" 0 emptyStore)
        = some { Hostname := "h1", Version := "v1", LastHeartbeat := 0, Active := true } ∧
      (registerNewClient "h1" "v2" 5 (registerNewClient "h1" "v1" 0 emptyStore)
          = registerNewClient "h1" "v1" 0 emptyStore ∧
        mapLookup "h1" (registerNewClient "h1" "v2" 5 (registerNewClient "h1" "v1" 0 emptyStore))
          = some { Hostname := "h1", Version := "v1", LastHeartbeat := 0, Active := true }) :=
  ⟨by decide,
    registerNewClient_idempotent (registerNewClient "h1" "v1" 0 emptyStore) "h1" "v2" 5
      { Hostname := "h1", Version := "v1", LastHeartbeat := 0, Active := true } (by decide)⟩

/-- Claim C4 (unknown-identity safety): when the store holds no record for `id`,
each of `heartbeatClient`, `startShutdownClient` and `endShutdownClient` called for
`id` returns the store unchanged, so no record is created for `id`. -/
theorem unknown_identity_unchanged (store : SafeClientStore) (id v : String) (now : Time)
    (h : mapLookup id store = none) :
    heartbeatClient id v now store = store ∧
      startShutdownClient id v store = store ∧
      endShutdownClient id v store = store ∧
      mapLookup id (heartbeatClient id v now store) = none ∧
      mapLookup id (startShutdownClient id v store) = none ∧
      mapLookup id (endShutdownClient id v store) = none := by
  have h1 : heartbeatClient id v now store = store := by
    simp [heartbeatClient, getExistingClient_eq, h]
  have h2 : startShutdownClient id v store = store := by
    simp [startShutdownClient, getExistingClient_eq, h]
  have h3 : endShutdownClient id v store = store := by
    simp [endShutdownClient, getExistingClient_eq, h]
  refine ⟨h1, h2, h3, ?_, ?_, ?_⟩
  · rw [h1]; exact h
  · rw [h2]; exact h
  · rw [h3]; exact h

/-- Claim C4 at the empty store and the identity `h3`. -/
theorem unknown_identity_unchanged_witness :
    mapLookup "h3" emptyStore = none ∧
      (heartbeatClient "h3" "v1" 7 emptyStore = emptyStore ∧
        startShutdownClient "h3" "v1" emptyStore = emptyStore ∧
        endShutdownClient "h3" "v1" emptyStore = emptyStore ∧
        mapLookup "h3" (heartbeatClient "h3" "v1" 7 emptyStore) = none ∧
        mapLookup "h3" (startShutdownClient "h3" "v1" emptyStore) = none ∧
        mapLookup "h3" (endShutdownClient "h3" "v1" emptyStore) = none) :=
  ⟨rfl, unknown_identity_unchanged emptyStore "h3" "v1" 7 rfl⟩

/-- Claim C5 (terminal removal): after `endShutdownClient id v` the store has no
record for `id`, whatever the record's state and whatever `v` is; the record of
every other identity is as before; and a following `heartbeatClient` or
`startShutdownClient` for `id` returns the store unchanged. -/
theorem endShutdownClient_terminal (store : SafeClientStore) (id v : String) :
    mapLookup id (endShutdownClient id v store) = none ∧
      (∀ k, k ≠ id → mapLookup k (endShutdownClient id v store) = mapLookup k store) ∧
      (∀ v' now, heartbeatClient id v' now (endShutdownClient id v store)
          = endShutdownClient id v store) ∧
      (∀ v', startShutdownClient id v' (endShutdownClient id v store)
          = endShutdownClient id v store) := by
  have h0 : mapLookup id (endShutdownClient id v store) = none := by
    unfold endShutdownClient
    rw [getExistingClient_eq]
    cases h : mapLookup id store with
    | none => simpa using h
    | some c => simp [mapLookup_mapDelete]
  refine ⟨h0, ?_, ?_, ?_⟩
  · intro k hk
    unfold endShutdownClient
    rw [getExistingClient_eq]
    cases h : mapLookup id store with
    | none => rfl
    | some c => simp [mapLookup_mapDelete, hk]
  · intro v' now
    simp [heartbeatClient, getExistingClient_eq, h0]
  · intro v'
    simp [startShutdownClient, getExistingClient_eq, h0]

/-- Claim C5 at a store with an active `h1` and a shutting-down `h2`, removing `h2`
with a version other than the stored one. -/
theorem endShutdownClient_terminal_witness :
    mapLookup "h2" (endShutdownClient "h2" "v9"
        (startShutdownClient "h2" "v1"
          (registerNewClient "h2" "v1" 3 (registerNewClient "h1" "v1" 0 emptyStore)))) = none ∧
      mapLookup "h1" (endShutdownClient "h2" "v9"
        (startShutdownClient "h2" "v1"
          (registerNewClient "h2" "v1" 3 (registerNewClient "h1" "v1" 0 emptyStore))))
        = some { Hostname := "h1", Version := "v1", LastHeartbeat := 0, Active := true } := by
  have h := endShutdownClient_terminal
    (startShutdownClient "h2" "v1"
      (registerNewClient "h2" "v1" 3 (registerNewClient "h1" "v1" 0 emptyStore))) "h2" "v9"
  refine ⟨h.1, ?_⟩
  rw [h.2.1 "h1" (by decide)]
  decide

/-- Claim C6 (heartbeat effect): when the store holds a record `c` for `id`,
`heartbeatClient id v` at time `now` leaves under `id` the record `c` with
`LastHeartbeat` set to `now` and the other fields as they were, whatever the state
of `c` and whatever `v` is; the record of every other identity and the set of keys
are unchanged. -/
theorem heartbeatClient_effect (store : SafeClientStore) (id v : String) (now : Time)
    (c : Client) (h : mapLookup id store = some c) :
    mapLookup id (heartbeatClient id v now store)
        = some { Hostname := c.Hostname, Version := c.Version,
                 LastHeartbeat := now, Active := c.Active } ∧
      (∀ k, k ≠ id → mapLookup k (heartbeatClient id v now store) = mapLookup k store) ∧
      mapKeys (heartbeatClient id v now store) = mapKeys store := by
  have hb : heartbeatClient id v now store
      = mapModify id (fun c => { c with LastHeartbeat := now }) store := by
    simp [heartbeatClient, getExistingClient_eq, h]
  rw [hb]
  refine ⟨?_, ?_, mapKeys_mapModify _ _ _⟩
  · simp [mapLookup_mapModify, h]
  · intro k hk
    simp [mapLookup_mapModify, hk]

/-- Claim C6 at a shutting-down record and a heartbeat with another version. -/
theorem heartbeatClient_effect_witness :
    mapLookup "h2" (startShutdownClient "h2" "v1" (registerNewClient "h2" "v1" 3 emptyStore))
        = some { Hostname := "h2", Version := "v1", LastHeartbeat := 3, Active := false } ∧
      mapLookup "h2" (heartbeatClient "h2" "v7" 11
          (startShutdownClient "h2" "v1" (registerNewClient "h2" "v1" 3 emptyStore)))
        = some { Hostname := "h2", Version := "v1", LastHeartbeat := 11, Active := false } :=
  ⟨by decide,
    (heartbeatClient_effect
      (startShutdownClient "h2" "v1" (registerNewClient "h2" "v1" 3 emptyStore)) "h2" "v7" 11
      { Hostname := "h2", Version := "v1", LastHeartbeat := 3, Active := false }
      (by decide)).1⟩

/-! ## The dispatcher -/

/-- Claim C10 (dispatch routing): on a decoded request `handleClientRequest` returns,
and the store it leaves is that of one handler chosen by the request type:
0 `registerNewClient`, 1 `heartbeatClient`, 2 `startShutdownClient`,
3 `endShutdownClient`, each called with the request's hostname and version; for a
type below 0 or above 3 the store is unchanged. -/
theorem handleClientRequest_routing (req : ClientRequest) (now : Time)
    (store : SafeClientStore) :
    (req.Type_ = 0 → handleClientRequest (.ok req) now store
        = .returned (registerNewClient req.Hostname req.Version now store)) ∧
      (req.Type_ = 1 → handleClientRequest (.ok req) now store
        = .returned (heartbeatClient req.Hostname req.Version now store)) ∧
      (req.Type_ = 2 → handleClientRequest (.ok req) now store
        = .returned (startShutdownClient req.Hostname req.Version store)) ∧
      (req.Type_ = 3 → handleClientRequest (.ok req) now store
        = .returned (endShutdownClient req.Hostname req.Version store)) ∧
      (req.Type_ < 0 ∨ 3 < req.Type_ → handleClientRequest (.ok req) now store
        = .returned store) := by
  refine ⟨?_, ?_, ?_, ?_, ?_⟩
  · intro h
    simp [handleClientRequest, ClientStartupType, h]
  · intro h
    simp [handleClientRequest, ClientStartupType, ClientHeartbeatType, h]
  · intro h
    simp [handleClientRequest, ClientStartupType, ClientHeartbeatType,
      ClientShutdownStartType, h]
  · intro h
    simp [handleClientRequest, ClientStartupType, ClientHeartbeatType,
      ClientShutdownStartType, ClientShutdownEndType, h]
  · intro h
    have h0 : ¬ req.Type_ = 0 := by omega
    have h1 : ¬ req.Type_ = 1 := by omega
    have h2 : ¬ req.Type_ = 2 := by omega
    have h3 : ¬ req.Type_ = 3 := by omega
    simp [handleClientRequest, ClientStartupType, ClientHeartbeatType,
      ClientShutdownStartType, ClientShutdownEndType, h0, h1, h2, h3]

/-- Claim C10 at requests of type 0, 3 and -1. -/
theorem handleClientRequest_routing_witness :
    handleClientRequest (.ok { Hostname := "h1", Type_ := 0, Version := "v1" }) 4 emptyStore
        = .returned (registerNewClient "h1" "v1" 4 emptyStore) ∧
      handleClientRequest (.ok { Hostname := "h1", Type_ := 3, Version := "v1" }) 9
          (registerNewClient "h1" "v1" 4 emptyStore)
        = .returned (endShutdownClient "h1" "v1" (registerNewClient "h1" "v1" 4 emptyStore)) ∧
      handleClientRequest (.ok { Hostname := "h1", Type_ := -1, Version := "v1" }) 9
          (registerNewClient "h1" "v1" 4 emptyStore)
        = .returned (registerNewClient "h1" "v1" 4 emptyStore) :=
  ⟨(handleClientRequest_routing { Hostname := "h1", Type_ := 0, Version := "v1" } 4
      emptyStore).1 rfl,
    (handleClientRequest_routing { Hostname := "h1", Type_ := 3, Version := "v1" } 9
      (registerNewClient "h1" "v1" 4 emptyStore)).2.2.2.1 rfl,
    (handleClientRequest_routing { Hostname := "h1", Type_ := -1, Version := "v1" } 9
      (registerNewClient "h1" "v1" 4 emptyStore)).2.2.2.2 (Or.inl (by decide))⟩

/-- Claim C8 as stated fails: on an undecodable payload `handleClientRequest` does
not return to its caller, the process ends with status 1, and a registration that
follows the bad request is never handled. -/
theorem handleClientRequest_malformed_counterexample :
    handleClientRequest (.error "unexpected EOF") 0 emptyStore = .fatal 1 ∧
      (¬ ∃ store, handleClientRequest (.error "unexpected EOF") 0 emptyStore
          = .returned store) ∧
      serveRequests
          [(0, .error "unexpected EOF"),
           (1, .ok { Hostname := "h1", Type_ := 0, Version := "v1" })] emptyStore
        = .fatal 1 ∧
      serveRequests
          [(1, .ok { Hostname := "h1", Type_ := 0, Version := "v1" })] emptyStore
        = .returned (registerNewClient "h1" "v1" 1 emptyStore) := by
  refine ⟨rfl, ?_, rfl, rfl⟩
  rintro ⟨store, h⟩
  simp [handleClientRequest] at h

/-- Claim C8 as amended: for every decode error, every time and every store,
`handleClientRequest` calls no handler and ends the process with status 1
(`log.Fatalf`); whatever requests follow, none of them is handled. -/
theorem handleClientRequest_malformed_fatal (err : String) (now : Time)
    (store : SafeClientStore) :
    handleClientRequest (.error err) now store = .fatal 1 ∧
      ∀ rest, serveRequests ((now, .error err) :: rest) store = .fatal 1 :=
  ⟨rfl, fun _ => rfl⟩

/-! ## Reading the store after each operation -/

theorem mapLookup_registerNewClient (k h v : String) (now : Time) (s : SafeClientStore) :
    mapLookup k (registerNewClient h v now s)
      = if k = h ∧ mapLookup h s = none
        then some { Hostname := h, Version := v, LastHeartbeat := now, Active := true }
        else mapLookup k s := by
  unfold registerNewClient
  cases hl : mapLookup h s with
  | some c => simp [hl]
  | none =>
    by_cases hk : k = h
    · simp [hl, mapLookup_mapSet, hk]
    · simp [hl, mapLookup_mapSet, hk]

theorem mapLookup_heartbeatClient (k h v : String) (now : Time) (s : SafeClientStore) :
    mapLookup k (heartbeatClient h v now s)
      = if k = h then (mapLookup k s).map (fun c => { c with LastHeartbeat := now })
        else mapLookup k s := by
  unfold heartbeatClient
  rw [getExistingClient_eq]
  cases hl : mapLookup h s with
  | some c => simp [mapLookup_mapModify]
  | none =>
    by_cases hk : k = h
    · simp [hk, hl]
    · simp [hk]

theorem mapLookup_startShutdownClient (k h v : String) (s : SafeClientStore) :
    mapLookup k (startShutdownClient h v s)
      = if k = h then (mapLookup k s).map (fun c => { c with Active := false })
        else mapLookup k s := by
  unfold startShutdownClient
  rw [getExistingClient_eq]
  cases hl : mapLookup h s with
  | some c => simp [mapLookup_mapModify]
  | none =>
    by_cases hk : k = h
    · simp [hk, hl]
    · simp [hk]

theorem mapLookup_endShutdownClient (k h v : String) (s : SafeClientStore) :
    mapLookup k (endShutdownClient h v s) = if k = h then none else mapLookup k s := by
  unfold endShutdownClient
  rw [getExistingClient_eq]
  cases hl : mapLookup h s with
  | some c => simp [mapLookup_mapDelete]
  | none =>
    by_cases hk : k = h
    · simp [hk, hl]
    · simp [hk]

/-- A step of the monitor loop never adds or alters a record: each key reads as
before or is gone. -/
theorem mapLookup_sweepStep_cases (k k' : String) (now : Time) (s : SafeClientStore) :
    mapLookup k (sweepStep now s k') = mapLookup k s ∨
      mapLookup k (sweepStep now s k') = none := by
  unfold sweepStep
  cases mapLookup k' s with
  | none => exact Or.inl rfl
  | some c =>
    by_cases ha : c.Active = true
    · by_cases ht : c.LastHeartbeat + Second < now
      · by_cases hk : k = c.Hostname
        · right; simp [ha, ht, mapLookup_mapDelete, hk]
        · left; simp [ha, ht, mapLookup_mapDelete, hk]
      · left; simp [ha, ht]
    · left; simp [ha]

theorem mapLookup_sweepOver_cases (order : List String) (k : String) (now : Time)
    (s : SafeClientStore) :
    mapLookup k (sweepOver order now s) = mapLookup k s ∨
      mapLookup k (sweepOver order now s) = none := by
  induction order generalizing s with
  | nil => exact Or.inl rfl
  | cons k' rest ih =>
    have hstep := mapLookup_sweepStep_cases k k' now s
    have hrest := ih (sweepStep now s k')
    have hunf : sweepOver (k' :: rest) now s = sweepOver rest now (sweepStep now s k') := rfl
    rw [hunf]
    rcases hrest with h1 | h1
    · rcases hstep with h2 | h2
      · exact Or.inl (h1.trans h2)
      · exact Or.inr (h1.trans h2)
    · exact Or.inr h1

theorem sweepOver_cons (k' : String) (rest : List String) (now : Time) (s : SafeClientStore) :
    sweepOver (k' :: rest) now s = sweepOver rest now (sweepStep now s k') := rfl

theorem runOps_cons (e : Time × Op) (tr : List (Time × Op)) (s : SafeClientStore) :
    runOps (e :: tr) s = runOps tr (applyOp e.1 e.2 s) := rfl

theorem runOps_append (tr1 tr2 : List (Time × Op)) (s : SafeClientStore) :
    runOps (tr1 ++ tr2) s = runOps tr2 (runOps tr1 s) := by
  unfold runOps
  rw [List.foldl_append]

/-! ## The invariant of reachable stores -/

theorem keyed_of_cases (s s' : SafeClientStore)
    (h : ∀ k, mapLookup k s' = mapLookup k s ∨ mapLookup k s' = none)
    (hs : KeyedByHostname s) : KeyedByHostname s' := by
  intro k c hc
  rcases h k with h1 | h1
  · exact hs k c (h1 ▸ hc)
  · rw [h1] at hc; cases hc

theorem keyed_emptyStore : KeyedByHostname emptyStore := by
  intro k c hc
  cases hc

theorem keyed_applyOp (now : Time) (op : Op) (s : SafeClientStore)
    (hs : KeyedByHostname s) : KeyedByHostname (applyOp now op s) := by
  intro k c hc
  cases op with
  | register h v =>
    simp only [applyOp, mapLookup_registerNewClient] at hc
    split at hc
    · rename_i hcond
      cases hc
      exact hcond.1.symm
    · exact hs k c hc
  | heartbeat h v =>
    simp only [applyOp, mapLookup_heartbeatClient] at hc
    split at hc
    · cases hl : mapLookup k s with
      | none => rw [hl] at hc; cases hc
      | some c0 =>
        rw [hl] at hc
        cases hc
        exact hs k c0 hl
    · exact hs k c hc
  | startShutdown h v =>
    simp only [applyOp, mapLookup_startShutdownClient] at hc
    split at hc
    · cases hl : mapLookup k s with
      | none => rw [hl] at hc; cases hc
      | some c0 =>
        rw [hl] at hc
        cases hc
        exact hs k c0 hl
    · exact hs k c hc
  | endShutdown h v =>
    simp only [applyOp, mapLookup_endShutdownClient] at hc
    split at hc
    · cases hc
    · exact hs k c hc
  | sweep order =>
    exact keyed_of_cases s _ (fun k => mapLookup_sweepOver_cases order k now s) hs k c hc

theorem keyed_runOps (tr : List (Time × Op)) (s : SafeClientStore)
    (hs : KeyedByHostname s) : KeyedByHostname (runOps tr s) := by
  induction tr generalizing s with
  | nil => exact hs
  | cons e rest ih =>
    rw [runOps_cons]
    exact ih _ (keyed_applyOp e.1 e.2 s hs)

/-! ## One pass of the monitor loop -/

theorem sweepStep_keeps (k k' : String) (now : Time) (s : SafeClientStore) (c : Client)
    (hs : KeyedByHostname s) (hc : mapLookup k s = some c) (hne : ¬ Expired now c) :
    mapLookup k (sweepStep now s k') = some c := by
  unfold sweepStep
  cases hl : mapLookup k' s with
  | none => exact hc
  | some c' =>
    by_cases ha : c'.Active = true
    · by_cases ht : c'.LastHeartbeat + Second < now
      · have hk' : c'.Hostname = k' := hs k' c' hl
        have hkk : ¬ k = k' := by
          intro hkk
          subst hkk
          rw [hc] at hl
          cases hl
          exact hne ⟨ha, ht⟩
        simp [ha, ht, mapLookup_mapDelete, hk', hkk, hc]
      · simp [ha, ht, hc]
    · simp [ha, hc]

theorem sweepStep_removes (k : String) (now : Time) (s : SafeClientStore) (c : Client)
    (hs : KeyedByHostname s) (hc : mapLookup k s = some c) (he : Expired now c) :
    mapLookup k (sweepStep now s k) = none := by
  have hk : c.Hostname = k := hs k c hc
  unfold sweepStep
  simp [hc, he.1, he.2, mapLookup_mapDelete, hk]

theorem keyed_sweepStep (k' : String) (now : Time) (s : SafeClientStore)
    (hs : KeyedByHostname s) : KeyedByHostname (sweepStep now s k') :=
  keyed_of_cases s _ (fun k => mapLookup_sweepStep_cases k k' now s) hs

theorem sweepOver_absent (order : List String) (k : String) (now : Time)
    (s : SafeClientStore) (h : mapLookup k s = none) :
    mapLookup k (sweepOver order now s) = none := by
  rcases mapLookup_sweepOver_cases order k now s with h1 | h1
  · exact h1.trans h
  · exact h1

theorem sweepOver_keeps (order : List String) (k : String) (now : Time)
    (s : SafeClientStore) (c : Client)
    (hs : KeyedByHostname s) (hc : mapLookup k s = some c) (hne : ¬ Expired now c) :
    mapLookup k (sweepOver order now s) = some c := by
  induction order generalizing s with
  | nil => exact hc
  | cons k' rest ih =>
    rw [sweepOver_cons]
    exact ih _ (keyed_sweepStep k' now s hs) (sweepStep_keeps k k' now s c hs hc hne)

theorem sweepOver_removes (order : List String) (k : String) (now : Time)
    (s : SafeClientStore) (c : Client)
    (hs : KeyedByHostname s) (hc : mapLookup k s = some c) (he : Expired now c)
    (hmem : k ∈ order) :
    mapLookup k (sweepOver order now s) = none := by
  induction order generalizing s with
  | nil => cases hmem
  | cons k' rest ih =>
    rw [sweepOver_cons]
    by_cases hkk : k = k'
    · subst hkk
      exact sweepOver_absent rest k now _ (sweepStep_removes k now s c hs hc he)
    · have hrest : k ∈ rest := by
        rcases List.mem_cons.mp hmem with h | h
        · exact absurd h hkk
        · exact h
      rcases mapLookup_sweepStep_cases k k' now s with h1 | h1
      · exact ih _ (keyed_sweepStep k' now s hs) (h1.trans hc) hrest
      · exact sweepOver_absent rest k now _ h1

theorem mem_mapKeys_of_mapLookup (k : String) (s : SafeClientStore) (c : Client)
    (h : mapLookup k s = some c) : k ∈ mapKeys s := by
  induction s with
  | nil => cases h
  | cons e rest ih =>
    rw [mapLookup_cons] at h
    unfold mapKeys at ih ⊢
    by_cases he : e.1 = k
    · simp [he.symm]
    · rw [if_neg he] at h
      exact List.mem_cons_of_mem _ (ih h)

/-- Claim C1 (timeout eviction): let the store be the result of any sequence of
registry operations from the empty store, and let one pass of the monitor loop run
at time `now`, visiting the keys in any order that is a permutation of the keys.
Then an active record with `now - LastHeartbeat` above one second is gone after the
pass, and an active record with `now - LastHeartbeat` at most one second is still
there, unchanged. -/
theorem sweep_timeout_eviction (tr : List (Time × Op)) (now : Time) (order : List String)
    (hperm : order.Perm (mapKeys (runOps tr emptyStore)))
    (k : String) (c : Client)
    (hc : mapLookup k (runOps tr emptyStore) = some c) (hact : c.Active = true) :
    (now - c.LastHeartbeat > Second →
        mapLookup k (sweepOver order now (runOps tr emptyStore)) = none) ∧
      (now - c.LastHeartbeat ≤ Second →
        mapLookup k (sweepOver order now (runOps tr emptyStore)) = some c) := by
  have hs : KeyedByHostname (runOps tr emptyStore) := keyed_runOps tr _ keyed_emptyStore
  constructor
  · intro hage
    have hmem : k ∈ order := hperm.symm.subset (mem_mapKeys_of_mapLookup k _ c hc)
    have hlt : c.LastHeartbeat + Second < now := by
      have h' : Second < now - c.LastHeartbeat := hage
      linarith
    have he : Expired now c := ⟨hact, hlt⟩
    exact sweepOver_removes order k now _ c hs hc he hmem
  · intro hage
    have hne : ¬ Expired now c := by
      rintro ⟨_, ht⟩
      linarith
    exact sweepOver_keeps order k now _ c hs hc hne

/-- Claim C1 at its scenario: `h1` registered at 0, heartbeat at 0.1 s; the pass at
1.0 s keeps the record (age 0.9 s), the pass at 1.2 s removes it (age 1.1 s). -/
theorem sweep_timeout_eviction_witness :
    mapLookup "h1"
        (runOps [(0, .register "h1" "v1"), (100000000, .heartbeat "h1" "v1")] emptyStore)
        = some { Hostname := "h1", Version := "v1", LastHeartbeat := 100000000,
                 Active := true } ∧
      mapLookup "h1" (sweepOver ["h1"] 1000000000
        (runOps [(0, .register "h1" "v1"), (100000000, .heartbeat "h1" "v1")] emptyStore))
        = some { Hostname := "h1", Version := "v1", LastHeartbeat := 100000000,
                 Active := true } ∧
      mapLookup "h1" (sweepOver ["h1"] 1200000000
        (runOps [(0, .register "h1" "v1"), (100000000, .heartbeat "h1" "v1")] emptyStore))
        = none :=
  ⟨by decide,
    (sweep_timeout_eviction
      [(0, .register "h1" "v1"), (100000000, .heartbeat "h1" "v1")] 1000000000 ["h1"]
      (by decide) "h1"
      { Hostname := "h1", Version := "v1", LastHeartbeat := 100000000, Active := true }
      (by decide) rfl).2 (by decide),
    (sweep_timeout_eviction
      [(0, .register "h1" "v1"), (100000000, .heartbeat "h1" "v1")] 1200000000 ["h1"]
      (by decide) "h1"
      { Hostname := "h1", Version := "v1", LastHeartbeat := 100000000, Active := true }
      (by decide) rfl).1 (by decide)⟩

/-! ## Records that are shutting down -/

theorem runOps_keeps_shutting_down (tr : List (Time × Op)) (id : String)
    (s : SafeClientStore) (c : Client)
    (hs : KeyedByHostname s) (hc : mapLookup id s = some c) (hact : c.Active = false)
    (hno : ∀ e ∈ tr, ∀ v, e.2 ≠ Op.endShutdown id v) :
    ∃ c', mapLookup id (runOps tr s) = some c' ∧ c'.Active = false ∧
      c'.Hostname = c.Hostname ∧ c'.Version = c.Version := by
  induction tr generalizing s c with
  | nil => exact ⟨c, hc, hact, rfl, rfl⟩
  | cons e rest ih =>
    rw [runOps_cons]
    have hno' : ∀ e' ∈ rest, ∀ v, e'.2 ≠ Op.endShutdown id v :=
      fun e' he' => hno e' (List.mem_cons_of_mem _ he')
    have hs' : KeyedByHostname (applyOp e.1 e.2 s) := keyed_applyOp e.1 e.2 s hs
    have hstep : ∃ c1, mapLookup id (applyOp e.1 e.2 s) = some c1 ∧ c1.Active = false ∧
        c1.Hostname = c.Hostname ∧ c1.Version = c.Version := by
      have hne := hno e (List.mem_cons_self _ _)
      cases hop : e.2 with
      | register h v =>
        refine ⟨c, ?_, hact, rfl, rfl⟩
        simp only [applyOp, mapLookup_registerNewClient]
        by_cases hk : id = h
        · subst hk
          simp [hc]
        · simp [hk, hc]
      | heartbeat h v =>
        simp only [applyOp, mapLookup_heartbeatClient]
        by_cases hk : id = h
        · exact ⟨{ c with LastHeartbeat := e.1 }, by simp [hk.symm, hc], hact, rfl, rfl⟩
        · exact ⟨c, by simp [hk, hc], hact, rfl, rfl⟩
      | startShutdown h v =>
        simp only [applyOp, mapLookup_startShutdownClient]
        by_cases hk : id = h
        · exact ⟨{ c with Active := false }, by simp [hk.symm, hc], rfl, rfl, rfl⟩
        · exact ⟨c, by simp [hk, hc], hact, rfl, rfl⟩
      | endShutdown h v =>
        have hk : ¬ id = h := by
          intro hk
          subst hk
          exact hne v hop
        exact ⟨c, by simp [applyOp, mapLookup_endShutdownClient, hk, hc], hact, rfl, rfl⟩
      | sweep order =>
        refine ⟨c, ?_, hact, rfl, rfl⟩
        have hnexp : ¬ Expired e.1 c := by
          rintro ⟨ha, _⟩
          rw [hact] at ha
          cases ha
        exact sweepOver_keeps order id e.1 s c hs hc hnexp
    obtain ⟨c1, hc1, ha1, hh1, hv1⟩ := hstep
    obtain ⟨c', h1, h2, h3, h4⟩ := ih _ c1 hs' hc1 ha1 hno'
    exact ⟨c', h1, h2, h3.trans hh1, h4.trans hv1⟩

/-- Claim C2 (shutdown exemption): let the store be the result of any sequence of
registry operations from the empty store and hold a record for `id`. After
`startShutdownClient id v`, and then after any further sequence of operations that
holds no `endShutdownClient` for `id` (registrations, heartbeats, shutdown starts
and monitor passes for any identities, at any times, in any visiting order, and
removals of other identities), the store still holds a record for `id`, it is not
active, and it has the hostname `id` and the version it had. `endShutdownClient id`
then removes it. Moreover, in any store reached from the empty one, a monitor pass
in any order at any time leaves every record that is not active in place,
unchanged. -/
theorem shutdown_exemption (tr1 tr2 : List (Time × Op)) (id v : String) (c : Client)
    (hc : mapLookup id (runOps tr1 emptyStore) = some c)
    (hno : ∀ e ∈ tr2, ∀ v', e.2 ≠ Op.endShutdown id v') :
    (∃ c', mapLookup id
          (runOps tr2 (startShutdownClient id v (runOps tr1 emptyStore))) = some c' ∧
        c'.Active = false ∧ c'.Hostname = id ∧ c'.Version = c.Version) ∧
      (∀ v', mapLookup id (endShutdownClient id v'
          (runOps tr2 (startShutdownClient id v (runOps tr1 emptyStore)))) = none) ∧
      (∀ (tr : List (Time × Op)) (k : String) (d : Client) (order : List String)
          (now : Time),
        mapLookup k (runOps tr emptyStore) = some d → d.Active = false →
          mapLookup k (sweepOver order now (runOps tr emptyStore)) = some d) := by
  have hs1 : KeyedByHostname (runOps tr1 emptyStore) := keyed_runOps tr1 _ keyed_emptyStore
  have hs2 : KeyedByHostname (startShutdownClient id v (runOps tr1 emptyStore)) :=
    keyed_applyOp 0 (.startShutdown id v) _ hs1
  have hc2 : mapLookup id (startShutdownClient id v (runOps tr1 emptyStore))
      = some { c with Active := false } := by
    simp [mapLookup_startShutdownClient, hc]
  refine ⟨?_, ?_, ?_⟩
  · obtain ⟨c', h1, h2, h3, h4⟩ :=
      runOps_keeps_shutting_down tr2 id _ _ hs2 hc2 rfl hno
    exact ⟨c', h1, h2, h3.trans (hs1 id c hc), h4⟩
  · intro v'
    simp [mapLookup_endShutdownClient]
  · intro tr k d order now hd hact
    have hnexp : ¬ Expired now d := by
      rintro ⟨ha, _⟩
      rw [hact] at ha
      cases ha
    exact sweepOver_keeps order k now _ d (keyed_runOps tr _ keyed_emptyStore) hd hnexp

/-- Claim C2 at its scenario: `h2` registered, shutdown started, a pass 100 s later
keeps the record, and `endShutdownClient` removes it. -/
theorem shutdown_exemption_witness :
    mapLookup "h2" (runOps [(0, .register "h2" "v1")] emptyStore)
        = some { Hostname := "h2", Version := "v1", LastHeartbeat := 0, Active := true } ∧
      (∀ e ∈ [((100000000000 : Time), Op.sweep ["h2"])],
        ∀ v', e.2 ≠ Op.endShutdown "h2" v') ∧
      (∃ c', mapLookup "h2"
            (runOps [(100000000000, .sweep ["h2"])]
              (startShutdownClient "h2" "v1"
                (runOps [(0, .register "h2" "v1")] emptyStore))) = some c' ∧
          c'.Active = false ∧ c'.Hostname = "h2" ∧ c'.Version = "v1") ∧
      mapLookup "h2" (endShutdownClient "h2" "v1"
          (runOps [(100000000000, .sweep ["h2"])]
            (startShutdownClient "h2" "v1"
              (runOps [(0, .register "h2" "v1")] emptyStore)))) = none :=
  have hno : ∀ e ∈ [((100000000000 : Time), Op.sweep ["h2"])],
      ∀ v', e.2 ≠ Op.endShutdown "h2" v' := by
    intro e he v' h
    rw [List.mem_singleton] at he
    subst he
    cases h
  ⟨by decide, hno,
    (shutdown_exemption [(0, .register "h2" "v1")] [(100000000000, .sweep ["h2"])]
      "h2" "v1" { Hostname := "h2", Version := "v1", LastHeartbeat := 0, Active := true }
      (by decide) hno).1,
    (shutdown_exemption [(0, .register "h2" "v1")] [(100000000000, .sweep ["h2"])]
      "h2" "v1" { Hostname := "h2", Version := "v1", LastHeartbeat := 0, Active := true }
      (by decide) hno).2.1 "v1"⟩

/-! ## Monotonicity of the last heartbeat -/

/-- After one operation at time `now`, the last heartbeat of the record under `id`
is the one it had before the operation, or it is `now`. -/
theorem applyOp_lastHeartbeat (now : Time) (op : Op) (id : String) (s : SafeClientStore)
    (c : Client) (hc : mapLookup id (applyOp now op s) = some c) :
    (∃ c0, mapLookup id s = some c0 ∧ c0.LastHeartbeat = c.LastHeartbeat) ∨
      c.LastHeartbeat = now := by
  cases op with
  | register h v =>
    simp only [applyOp, mapLookup_registerNewClient] at hc
    split at hc
    · cases hc
      exact Or.inr rfl
    · exact Or.inl ⟨c, hc, rfl⟩
  | heartbeat h v =>
    simp only [applyOp, mapLookup_heartbeatClient] at hc
    split at hc
    · cases hl : mapLookup id s with
      | none => rw [hl] at hc; cases hc
      | some c0 =>
        rw [hl] at hc
        cases hc
        exact Or.inr rfl
    · exact Or.inl ⟨c, hc, rfl⟩
  | startShutdown h v =>
    simp only [applyOp, mapLookup_startShutdownClient] at hc
    split at hc
    · cases hl : mapLookup id s with
      | none => rw [hl] at hc; cases hc
      | some c0 =>
        rw [hl] at hc
        cases hc
        exact Or.inl ⟨c0, rfl, rfl⟩
    · exact Or.inl ⟨c, hc, rfl⟩
  | endShutdown h v =>
    simp only [applyOp, mapLookup_endShutdownClient] at hc
    split at hc
    · cases hc
    · exact Or.inl ⟨c, hc, rfl⟩
  | sweep order =>
    rcases mapLookup_sweepOver_cases order id now s with h1 | h1
    · exact Or.inl ⟨c, by rw [← h1]; exact hc, rfl⟩
    · simp only [applyOp] at hc
      rw [h1] at hc
      cases hc

/-- After a sequence of operations, the last heartbeat of the record under `id` is
the one it had at the start, or the time of one of the operations. -/
theorem runOps_lastHeartbeat (tr : List (Time × Op)) (id : String) (s : SafeClientStore)
    (c : Client) (hc : mapLookup id (runOps tr s) = some c) :
    (∃ c0, mapLookup id s = some c0 ∧ c0.LastHeartbeat = c.LastHeartbeat) ∨
      (∃ e ∈ tr, e.1 = c.LastHeartbeat) := by
  induction tr generalizing s with
  | nil => exact Or.inl ⟨c, hc, rfl⟩
  | cons e rest ih =>
    rw [runOps_cons] at hc
    rcases ih _ hc with ⟨c1, hc1, hlh⟩ | ⟨e', he', hlh⟩
    · rcases applyOp_lastHeartbeat e.1 e.2 id s c1 hc1 with ⟨c0, hc0, h0⟩ | hnow
      · exact Or.inl ⟨c0, hc0, h0.trans hlh⟩
      · exact Or.inr ⟨e, List.mem_cons_self _ _, hnow.symm.trans hlh⟩
    · exact Or.inr ⟨e', List.mem_cons_of_mem _ he', hlh⟩

/-- Claim C7 (heartbeat monotonicity): run any sequence of registry operations
from the empty store at clock readings that never decrease, and look at the store
at two points of the run, the second one later. If the store holds a record for
`id` at both points, its `LastHeartbeat` at the later point is at least its
`LastHeartbeat` at the earlier one. -/
theorem lastHeartbeat_monotone (tr1 tr2 : List (Time × Op)) (id : String) (c c' : Client)
    (hsorted : ((tr1 ++ tr2).map Prod.fst).Pairwise (fun a b => a ≤ b))
    (hc : mapLookup id (runOps tr1 emptyStore) = some c)
    (hc' : mapLookup id (runOps (tr1 ++ tr2) emptyStore) = some c') :
    c.LastHeartbeat ≤ c'.LastHeartbeat := by
  rw [runOps_append] at hc'
  rcases runOps_lastHeartbeat tr2 id _ c' hc' with ⟨c0, hc0, h0⟩ | ⟨e2, he2, h2⟩
  · rw [hc] at hc0
    cases hc0
    exact le_of_eq h0
  · rcases runOps_lastHeartbeat tr1 id _ c hc with ⟨c0, hc0, _⟩ | ⟨e1, he1, h1⟩
    · cases hc0
    · rw [List.map_append, List.pairwise_append] at hsorted
      have hle := hsorted.2.2 e1.1 (List.mem_map_of_mem _ he1) e2.1 (List.mem_map_of_mem _ he2)
      rw [h1, h2] at hle
      exact hle

/-- Claim C7 at a run with heartbeats at 1 and 5 around a shutdown start. -/
theorem lastHeartbeat_monotone_witness :
    (([(0, Op.register "h1" "v1"), (1, Op.heartbeat "h1" "v1")]
          ++ [(2, Op.startShutdown "h1" "v1"), (5, Op.heartbeat "h1" "v2")]).map
        Prod.fst).Pairwise (fun (a b : Time) => a ≤ b) ∧
      mapLookup "h1"
          (runOps [(0, Op.register "h1" "v1"), (1, Op.heartbeat "h1" "v1")] emptyStore)
        = some { Hostname := "h1", Version := "v1", LastHeartbeat := 1, Active := true } ∧
      mapLookup "h1"
          (runOps ([(0, Op.register "h1" "v1"), (1, Op.heartbeat "h1" "v1")]
            ++ [(2, Op.startShutdown "h1" "v1"), (5, Op.heartbeat "h1" "v2")]) emptyStore)
        = some { Hostname := "h1", Version := "v1", LastHeartbeat := 5, Active := false } ∧
      (1 : Time) ≤ 5 :=
  ⟨by decide, by decide, by decide,
    lastHeartbeat_monotone
      [(0, Op.register "h1" "v1"), (1, Op.heartbeat "h1" "v1")]
      [(2, Op.startShutdown "h1" "v1"), (5, Op.heartbeat "h1" "v2")] "h1"
      { Hostname := "h1", Version := "v1", LastHeartbeat := 1, Active := true }
      { Hostname := "h1", Version := "v1", LastHeartbeat := 5, Active := false }
      (by decide) (by decide) (by decide)⟩

end LoggingServer
